import Mathlib

/-!
Shallow embedding of the nuthatch HTTP/WebSocket server (C sources under
`src/`).  Byte strings are modelled as `List Nat` (each element one byte);
machine integers are `Nat`/`Int` with explicit `% 2^w` where the C code
wraps.  Stream reads are modelled as functions consuming a `List Nat` and
returning the unread tail; fallible reads return `Option`.
-/

set_option maxRecDepth 10000

/-- ASCII `tolower` in the C locale: only `A`..`Z` change. -/
def ctolower (c : Nat) : Nat := if 65 ≤ c ∧ c ≤ 90 then c + 32 else c

/-- ASCII `toupper` in the C locale: only `a`..`z` change. -/
def ctoupper (c : Nat) : Nat := if 97 ≤ c ∧ c ≤ 122 then c - 32 else c

/-- Bytes of a Lean string literal (ASCII inputs only in this development). -/
def strB (s : String) : List Nat := s.toList.map Char.toNat

/-- Loop body of `sz_starts_with_case` (sz.c): walk both strings while both
have characters, compare (optionally case-folded), and at the end report
whether the prefix was exhausted. -/
def sz_starts_with_case (sz pre : List Nat) (ignore_case : Bool) : Bool :=
  match sz, pre with
  | _, [] => true
  | [], _ :: _ => false
  | a :: i, b :: j =>
      let a' := if ignore_case then ctolower a else a
      let b' := if ignore_case then ctolower b else b
      if a' ≠ b' then false else sz_starts_with_case i j ignore_case

/-- `sz_starts_with` (sz.c): case-sensitive prefix test. -/
def sz_starts_with (sz pre : List Nat) : Bool :=
  sz_starts_with_case sz pre false

/-- `sz_to_lower` (sz.c): lower-case every byte in place. -/
def sz_to_lower (sz : List Nat) : List Nat := sz.map ctolower

/-- Spec-side helper for claim C5: upper-case every byte (the spec's
`uppercase(H)`). -/
def sz_to_upper (sz : List Nat) : List Nat := sz.map ctoupper

/-- `sz_equal_ignore_case` (sz.c): walk both strings while both have
characters comparing case-folded bytes; equal iff both end together. -/
def sz_equal_ignore_case (a b : List Nat) : Bool :=
  match a, b with
  | [], [] => true
  | [], _ :: _ => false
  | _ :: _, [] => false
  | x :: xs, y :: ys =>
      if ctolower x ≠ ctolower y then false else sz_equal_ignore_case xs ys

/-- Whitespace set `SP_HT = " \t\n\r"` used by `sz_trim`. -/
def isTrimWS (c : Nat) : Bool := c = 32 ∨ c = 9 ∨ c = 10 ∨ c = 13

/-- `sz_trim` (sz.c): strip leading then trailing bytes of `" \t\n\r"`. -/
def sz_trim (sz : List Nat) : List Nat :=
  let l := sz.dropWhile isTrimWS
  (l.reverse.dropWhile isTrimWS).reverse

/-- `ht_hash_sz` (ht.c): `h = 31*h + byte` over an `unsigned int`. -/
def ht_hash_sz (s : List Nat) : Nat :=
  s.foldl (fun h c => (31 * h + c) % 2 ^ 32) 0

/-- The hash table of ht.c: `nhash` chains of name/value pairs, newest
entry at the head of its chain. -/
structure Hashtable where
  nhash : Nat
  chains : Nat → List (List Nat × List Nat)

/-- `ht_create(0, NULL, …)` (ht.c): 1021 empty chains, default hash. -/
def ht_create : Hashtable := ⟨1021, fun _ => []⟩

/-- Chain update of `ht_put`: if a node with the key exists, replace its
value in place; otherwise prepend a fresh node. -/
def chain_put (k v : List Nat) (c : List (List Nat × List Nat)) :
    List (List Nat × List Nat) :=
  if c.any (fun p => p.1 == k) then
    c.map (fun p => if p.1 == k then (p.1, v) else p)
  else (k, v) :: c

/-- `ht_put` (ht.c): hash the key, update that chain. -/
def ht_put (ht : Hashtable) (k v : List Nat) : Hashtable :=
  let h := ht_hash_sz k % ht.nhash
  { ht with chains := fun i => if i = h then chain_put k v (ht.chains h) else ht.chains i }

/-- Chain walk of `ht_get`: first node whose key is byte-equal. -/
def chain_get (k : List Nat) : List (List Nat × List Nat) → Option (List Nat)
  | [] => none
  | p :: rest => if p.1 == k then some p.2 else chain_get k rest

/-- `ht_get` (ht.c): hash the key, walk that chain comparing with `strcmp`. -/
def ht_get (ht : Hashtable) (k : List Nat) : Option (List Nat) :=
  chain_get k (ht.chains (ht_hash_sz k % ht.nhash))

/-- Header-line split of `parse_headers` (http.c), following `strtok`
semantics: `strtok(header, ":")` skips leading colons and returns the run up
to the next colon; `strtok(NULL, "\n\r")` then returns the following run up
to a LF/CR.  `none` when either token is `NULL` (the line is skipped). -/
def split_header (line : List Nat) : Option (List Nat × List Nat) :=
  let l := line.dropWhile (fun c => c == 58)
  if l.isEmpty then none
  else
    let name := l.takeWhile (fun c => c != 58)
    let rest := (l.dropWhile (fun c => c != 58)).drop 1
    let valArea := rest.dropWhile (fun c => c == 10 || c == 13)
    if valArea.isEmpty then none
    else some (name, valArea.takeWhile (fun c => c != 10 && c != 13))

/-- `parse_headers` (http.c) applied to the non-empty header lines already
read: lower-case each name, trim each value, insert into the table. -/
def parse_headers (lines : List (List Nat)) : Hashtable :=
  lines.foldl
    (fun ht line =>
      match split_header line with
      | none => ht
      | some (n, v) => ht_put ht (sz_to_lower n) (sz_trim v))
    ht_create

/-- WebSocket frame as held in a `Data_Frame` (ws.c): opcode nibble, FIN
flag, payload bytes (`len` is the payload length). -/
structure Frame where
  opcode : Nat
  fin : Bool
  payload : List Nat
deriving DecidableEq, Repr

/-- Four-byte masking key. -/
structure MKey where
  k0 : Nat
  k1 : Nat
  k2 : Nat
  k3 : Nat
deriving DecidableEq, Repr

/-- Key byte used for payload position `i`: `key[i mod 4]`. -/
def MKey.byteAt (k : MKey) (i : Nat) : Nat :=
  match i % 4 with
  | 0 => k.k0
  | 1 => k.k1
  | 2 => k.k2
  | _ => k.k3

/-- Wire bytes of the key as written after the header. -/
def MKey.bytes (k : MKey) : List Nat := [k.k0, k.k1, k.k2, k.k3]

/-- The masking loop of ws.c: XOR byte `i` with `key[i mod 4]`, starting at
position `i`. -/
def xor_mask (k : MKey) : Nat → List Nat → List Nat
  | _, [] => []
  | i, b :: bs => (b ^^^ k.byteAt i) :: xor_mask k (i + 1) bs

/-- Big-endian bytes of a 64-bit value (`htobe64`). -/
def be64bytes (n : Nat) : List Nat :=
  [n / 2 ^ 56 % 256, n / 2 ^ 48 % 256, n / 2 ^ 40 % 256, n / 2 ^ 32 % 256,
   n / 2 ^ 24 % 256, n / 2 ^ 16 % 256, n / 2 ^ 8 % 256, n % 256]

/-- `write_dataframe` (ws.c) as the byte sequence it sends: two header
bytes with the shortest length form, then extended length, then the 4-byte
key and masked payload when a key is supplied, else the raw payload.
The opcode is truncated to the 4-bit header field, as the C bitfield
assignment does. -/
def write_dataframe (df : Frame) (mask_key : Option MKey) : List Nat :=
  let len := df.payload.length
  let b0 := (if df.fin then 128 else 0) + df.opcode % 16
  let mbit := if mask_key.isSome then 128 else 0
  let header :=
    if len ≤ 125 then [b0, mbit + len]
    else if len ≤ 65535 then [b0, mbit + 126, len / 256 % 256, len % 256]
    else [b0, mbit + 127] ++ be64bytes len
  let tail :=
    match mask_key with
    | none => df.payload
    | some k => k.bytes ++ xor_mask k 0 df.payload
  header ++ tail

/-- Extended-length decode of `read_dataframe`: `len7 = 127` takes a
big-endian u64 whose top bit must be clear, `len7 = 126` takes a big-endian
u16, anything else is the inline 7-bit length. -/
def parse_len (len7 : Nat) (s : List Nat) : Option (Nat × List Nat) :=
  if len7 = 127 then
    match s with
    | a :: b :: c :: d :: e :: f :: g :: h :: r =>
        let n := ((((((a * 256 + b) * 256 + c) * 256 + d) * 256 + e) * 256 + f)
                    * 256 + g) * 256 + h
        if n / 2 ^ 63 % 2 = 1 then none else some (n, r)
    | _ => none
  else if len7 = 126 then
    match s with
    | a :: b :: r => some (a * 256 + b, r)
    | _ => none
  else some (len7, s)

/-- Mask-key read of `read_dataframe`: four bytes when the MASK bit is set,
nothing otherwise (the key is then unused). -/
def parse_key (maskbit : Bool) (s : List Nat) : Option (MKey × List Nat) :=
  if maskbit then
    match s with
    | a :: b :: c :: d :: r => some (⟨a, b, c, d⟩, r)
    | _ => none
  else some (⟨0, 0, 0, 0⟩, s)

/-- Payload read of `read_dataframe`: `len` bytes (failing on a short
stream), unmasked in place when the MASK bit is set. -/
def parse_payload (maskbit : Bool) (len : Nat) (k : MKey) (s : List Nat) :
    Option (List Nat × List Nat) :=
  if len = 0 then some ([], s)
  else if s.length < len then none
  else
    let raw := s.take len
    some (if maskbit then xor_mask k 0 raw else raw, s.drop len)

/-- `read_dataframe` (ws.c): decode the two header bytes (FIN is bit 7 of
byte 0, opcode its low nibble, MASK bit 7 of byte 1, len7 its low 7 bits),
fail when an unmasked frame arrives while masking is required, then read
extended length, key and payload.  The reserved bits are decoded by the
header bitfield but never examined. -/
def read_dataframe (require_masked : Bool) (s : List Nat) :
    Option (Frame × List Nat) :=
  match s with
  | b0 :: b1 :: rest =>
      let fin : Bool := decide (b0 / 128 % 2 = 1)
      let opcode := b0 % 16
      let maskbit : Bool := decide (b1 / 128 % 2 = 1)
      let len7 := b1 % 128
      if maskbit = false ∧ require_masked = true then none
      else
        match parse_len len7 rest with
        | none => none
        | some (len, r1) =>
            match parse_key maskbit r1 with
            | none => none
            | some (k, r2) =>
                match parse_payload maskbit len k r2 with
                | none => none
                | some (p, r3) => some (⟨opcode, fin, p⟩, r3)
  | _ => none

/-- Mutable per-session state of `struct Websocket_S` that the message loop
touches: the reassembly buffer, the control-frame counters and the close
status. -/
structure WsState where
  buff : List Nat
  ping_recv : Nat
  pong_recv : Nat
  status_code : Nat
deriving DecidableEq, Repr

/-- Fresh session state as set up by `_ws_create`. -/
def ws_init : WsState := ⟨[], 0, 0, 0⟩

/-- One run of `_ws_read` (ws.c): read frames until a message completes, a
CLOSE arrives, or an error occurs.  Result mirrors the returned `char`
(`0` = read failure, `-1` = unexpected opcode, `1`/`2` = completed TEXT/BIN
message, `8` = CLOSE); the function also returns the updated state, the
unread stream, and the bytes written out (PONG replies).  `opcode_prev` is
the local `char` carried across iterations (`-1` = none).  `fuel` bounds
the iteration count; every iteration consumes at least two stream bytes, so
`stream length + 1` is always sufficient, and an exhausted fuel is reported
like a read failure. -/
def ws_read_loop (masked : Bool) :
    Nat → Int → WsState → List Nat → Int × WsState × List Nat × List Nat
  | 0, _, st, s => (0, st, s, [])
  | fuel + 1, prev, st, s =>
    match read_dataframe masked s with
    | none => (0, st, s, [])
    | some (df, s') =>
        let opcode : Int := if df.opcode = 0 then prev else Int.ofNat df.opcode
        let st1 := if df.opcode = 0 then st else { st with buff := [] }
        if opcode = 9 then
          -- PING: count it, echo the payload back as a PONG, continue
          let st2 := { st1 with ping_recv := st1.ping_recv + 1 }
          let pong := write_dataframe { df with opcode := 10 } none
          let next := ws_read_loop masked fuel (if df.fin then -1 else opcode) st2 s'
          (next.1, next.2.1, next.2.2.1, pong ++ next.2.2.2)
        else if opcode = 10 then
          -- PONG: count it, continue
          let st2 := { st1 with pong_recv := st1.pong_recv + 1 }
          ws_read_loop masked fuel (if df.fin then -1 else opcode) st2 s'
        else if opcode = 8 then
          -- CLOSE: big-endian status when the payload has ≥ 2 bytes, else 0
          let sc := if df.payload.length ≥ 2
                    then df.payload.getD 0 0 * 256 + df.payload.getD 1 0
                    else 0
          (8, { st1 with status_code := sc }, s', [])
        else if opcode = 1 ∨ opcode = 2 then
          -- TEXT/BIN: append to the reassembly buffer, return on FIN
          let st2 := { st1 with buff := st1.buff ++ df.payload }
          if df.fin then (opcode, st2, s', [])
          else ws_read_loop masked fuel opcode st2 s'
        else (-1, st1, s', [])

/-- `ws_wait`'s mapping of `_ws_read`'s result onto `WS_Msg_Type`
(`0` = WS_ERROR, `1` = WS_CLOSE, `2` = WS_MSG_TXT, `3` = WS_MSG_BIN). -/
def ws_wait_code (r : Int) : Nat :=
  if r = 8 then 1 else if r = 1 then 2 else if r = 2 then 3 else 0

/-- `ws_wait` (ws.c) over the embedded stream: run `_ws_read` and map its
result. -/
def ws_wait (masked : Bool) (fuel : Nat) (st : WsState) (s : List Nat) :
    Nat × WsState × List Nat × List Nat :=
  let r := ws_read_loop masked fuel (-1) st s
  (ws_wait_code r.1, r.2)

/-- 32-bit left rotation (values kept below `2^32`). -/
def rotl32 (k n : Nat) : Nat := (n * 2 ^ k + n / 2 ^ (32 - k)) % 2 ^ 32

/-- SHA-1 round function `f_t` (RFC 3174), modelling the `SHA1` library
call made by `_ws_handshake`. -/
def sha1_f (t b c d : Nat) : Nat :=
  if t < 20 then (b &&& c) ||| ((b ^^^ 4294967295) &&& d)
  else if t < 40 then b ^^^ c ^^^ d
  else if t < 60 then (b &&& c) ||| (b &&& d) ||| (c &&& d)
  else b ^^^ c ^^^ d

/-- SHA-1 round constants `K_t`. -/
def sha1_k (t : Nat) : Nat :=
  if t < 20 then 0x5A827999
  else if t < 40 then 0x6ED9EBA1
  else if t < 60 then 0x8F1BBCDC
  else 0xCA62C1D6

/-- Message-schedule extension: append `ROTL1(w[t-3]^w[t-8]^w[t-14]^w[t-16])`
`n` times. -/
def sha1_extend : Nat → List Nat → List Nat
  | 0, ws => ws
  | n + 1, ws =>
      let l := ws.length
      sha1_extend n
        (ws ++ [rotl32 1 (ws.getD (l - 3) 0 ^^^ ws.getD (l - 8) 0 ^^^
                          ws.getD (l - 14) 0 ^^^ ws.getD (l - 16) 0)])

/-- Big-endian assembly of 4-byte groups into 32-bit words. -/
def toWords32 : List Nat → List Nat
  | a :: b :: c :: d :: r => (((a * 256 + b) * 256 + c) * 256 + d) :: toWords32 r
  | _ => []

/-- One SHA-1 block compression over the 16 words of a 64-byte chunk. -/
def sha1_compress (h : Nat × Nat × Nat × Nat × Nat) (ws16 : List Nat) :
    Nat × Nat × Nat × Nat × Nat :=
  let w := sha1_extend 64 ws16
  let r := (List.range 80).foldl
    (fun st t =>
      let (a, b, c, d, e) := st
      let temp := (rotl32 5 a + sha1_f t b c d + e + w.getD t 0 + sha1_k t) % 2 ^ 32
      (temp, a, rotl32 30 b, c, d))
    (h.1, h.2.1, h.2.2.1, h.2.2.2.1, h.2.2.2.2)
  ((h.1 + r.1) % 2 ^ 32, (h.2.1 + r.2.1) % 2 ^ 32, (h.2.2.1 + r.2.2.1) % 2 ^ 32,
   (h.2.2.2.1 + r.2.2.2.1) % 2 ^ 32, (h.2.2.2.2 + r.2.2.2.2) % 2 ^ 32)

/-- Fold the compression over consecutive 64-byte chunks (`fuel` bounds the
recursion; the padded message length suffices). -/
def sha1_blocks : Nat → (Nat × Nat × Nat × Nat × Nat) → List Nat →
    Nat × Nat × Nat × Nat × Nat
  | 0, h, _ => h
  | _ + 1, h, [] => h
  | fuel + 1, h, msg => sha1_blocks fuel (sha1_compress h (toWords32 (msg.take 64))) (msg.drop 64)

/-- SHA-1 padding: `0x80`, zeros to 56 mod 64, then the 64-bit big-endian
bit length. -/
def sha1_pad (msg : List Nat) : List Nat :=
  let l := msg.length
  msg ++ [128] ++ List.replicate ((119 - l % 64) % 64) 0 ++ be64bytes (l * 8)

/-- Big-endian bytes of one 32-bit word. -/
def w32bytes (n : Nat) : List Nat :=
  [n / 2 ^ 24 % 256, n / 2 ^ 16 % 256, n / 2 ^ 8 % 256, n % 256]

/-- SHA-1 digest (20 bytes) of a byte string. -/
def sha1 (msg : List Nat) : List Nat :=
  let padded := sha1_pad msg
  let h := sha1_blocks padded.length
    (0x67452301, 0xEFCDAB89, 0x98BADCFE, 0x10325476, 0xC3D2E1F0) padded
  w32bytes h.1 ++ w32bytes h.2.1 ++ w32bytes h.2.2.1 ++ w32bytes h.2.2.2.1 ++
    w32bytes h.2.2.2.2

/-- The base64 alphabet used by `io_encode_b64` (standard, RFC 4648). -/
def b64alphabet : List Nat :=
  strB "ABCDEFGHIJKLMNOPQRSTUVWXYZabcdefghijklmnopqrstuvwxyz0123456789+/"

/-- Character for one 6-bit group. -/
def b64char (n : Nat) : Nat := b64alphabet.getD n 0

/-- `io_encode_b64` (io.c): unwrapped base64 with `=` padding. -/
def b64encode : List Nat → List Nat
  | a :: b :: c :: r =>
      b64char (a / 4) :: b64char (a % 4 * 16 + b / 16) ::
        b64char (b % 16 * 4 + c / 64) :: b64char (c % 64) :: b64encode r
  | [a, b] => [b64char (a / 4), b64char (a % 4 * 16 + b / 16), b64char (b % 16 * 4), 61]
  | [a] => [b64char (a / 4), b64char (a % 4 * 16), 61, 61]
  | [] => []

/-- The fixed GUID appended to the client key (`WS_MAGIC`, ws.c). -/
def wsMagic : List Nat := strB "258EAFA5-E914-47DA-95CA-C5AB0DC85B11"

/-- `_ws_handshake` (ws.c) as the bytes it writes: `none` when the
`upgrade: websocket` check fails or `sec-websocket-key` is missing (nothing
is written then); otherwise the 101 response whose accept value is the
unwrapped base64 of the SHA-1 of the raw key bytes followed by the GUID. -/
def ws_handshake (headers : Hashtable) : Option (List Nat) :=
  let upgraded := match ht_get headers (strB "upgrade") with
    | none => false
    | some v => sz_equal_ignore_case (strB "websocket") v
  if upgraded = false then none
  else match ht_get headers (strB "sec-websocket-key") with
    | none => none
    | some key =>
        some (strB "HTTP/1.1 101 Switching Protocols\r\n" ++
              strB "connection: upgrade\r\n" ++
              strB "upgrade: websocket\r\n" ++
              strB "sec-websocket-accept: " ++
              b64encode (sha1 (key ++ wsMagic)) ++
              strB "\r\n\r\n")

/-- Byte-at-a-time loop of `io_read_line_crlf` (io.c): fail when the line
buffer fills (`line_len >= buffer_len - 1` checked before every byte,
including the terminating LF) or at end of stream; on CRLF return the
buffered bytes with the trailing CR removed (the NUL overwrites it) and the
unread tail. -/
def read_line_loop (blen : Nat) (acc : List Nat) (prev : Nat) :
    List Nat → Option (List Nat × List Nat)
  | [] => none
  | ch :: rest =>
      if acc.length ≥ blen - 1 then none
      else if prev = 13 ∧ ch = 10 then some (acc.dropLast, rest)
      else read_line_loop blen (acc ++ [ch]) ch rest

/-- `io_read_line_crlf` (io.c) with buffer length `blen`. -/
def io_read_line_crlf (blen : Nat) (s : List Nat) : Option (List Nat × List Nat) :=
  if blen < 1 then none else read_line_loop blen [] 0 s

/-- Space-separated tokens of the request line, as produced by repeated
`strtok(_, " ")`: runs of non-space bytes, empties discarded. -/
def space_tokens (l : List Nat) : List (List Nat) :=
  (l.splitOn 32).filter (fun t => ¬t.isEmpty)

/-- `http_method` (http.c): case-insensitive match against the four honored
methods, `M_UNKNOWN = 0` otherwise (enum values from http.h). -/
def http_method (m : List Nat) : Nat :=
  if sz_equal_ignore_case (strB "GET") m then 1
  else if sz_equal_ignore_case (strB "POST") m then 3
  else if sz_equal_ignore_case (strB "PUT") m then 4
  else if sz_equal_ignore_case (strB "DELETE") m then 6
  else 0

/-- `isspace` set used by `sscanf`/`atoi`. -/
def isCSpace (c : Nat) : Bool := c = 32 ∨ (9 ≤ c ∧ c ≤ 13)

/-- Decimal digit test. -/
def isCDigit (c : Nat) : Bool := 48 ≤ c ∧ c ≤ 57

/-- Value of a digit run. -/
def digitsVal (ds : List Nat) : Nat := ds.foldl (fun n d => n * 10 + (d - 48)) 0

/-- One `%d` conversion of `sscanf`: optional whitespace, optional sign, at
least one digit; returns the unconsumed rest. -/
def scan_int (s : List Nat) : Option (List Nat) :=
  let s1 := s.dropWhile isCSpace
  let s2 := match s1 with
    | 43 :: r => r
    | 45 :: r => r
    | _ => s1
  let ds := s2.takeWhile isCDigit
  if ds.isEmpty then none else some (s2.drop ds.length)

/-- The `sscanf(version, "HTTP/%d.%d") == 2` test of `http_client_connect`. -/
def scan_http_version (v : List Nat) : Bool :=
  if v.take 5 = strB "HTTP/" then
    match scan_int (v.drop 5) with
    | none => false
    | some r =>
        match r with
        | 46 :: r2 => (scan_int r2).isSome
        | _ => false
  else false

/-- C `atoi`: optional whitespace, optional sign, leading digit run
(empty run gives 0). -/
def atoi (s : List Nat) : Int :=
  let s1 := s.dropWhile isCSpace
  match s1 with
  | 45 :: r => -(digitsVal (r.takeWhile isCDigit) : Int)
  | 43 :: r => (digitsVal (r.takeWhile isCDigit) : Int)
  | _ => (digitsVal (s1.takeWhile isCDigit) : Int)

/-- `PATH_MAX` on the target platform. -/
def PATH_MAX : Nat := 4096

/-- `realpath_uri` (http.c) over an abstract `realpath` primitive `rp`:
reject when root plus URI reaches `PATH_MAX`, canonicalize the
concatenation, and fail unless the canonical result has the root as a
byte-prefix. -/
def realpath_uri (rp : List Nat → Option (List Nat)) (root uri : List Nat) :
    Option (List Nat) :=
  if root.length + uri.length ≥ PATH_MAX then none
  else
    match rp (root ++ uri) with
    | none => none
    | some path => if sz_starts_with path root then some path else none

/-- Abstract filesystem seen by `dispatch_http`'s GET branch: the
`realpath` primitive and the `stat`/`open`/read behaviour of canonical
paths. -/
structure Fs where
  rp : List Nat → Option (List Nat)
  statOk : List Nat → Bool
  isReg : List Nat → Bool
  openOk : List Nat → Bool
  size : List Nat → Nat
  content : List Nat → List Nat

/-- Decimal ASCII bytes of a natural number (`fprintf %d`, non-negative). -/
def natBytes (n : Nat) : List Nat := (Nat.toDigits 10 n).map Char.toNat

/-- The `Expect: 100-continue` bytes `dispatch_http` emits before anything
else when the header matches. -/
def expect_out (headers : Hashtable) : List Nat :=
  match ht_get headers (strB "expect") with
  | none => []
  | some v =>
      if sz_equal_ignore_case v (strB "100-continue")
      then strB "HTTP/1.1 100 Continue\r\n\r\n" else []

/-- Result of one `dispatch_http` run: return code, bytes written to the
client, unread input. -/
structure DispatchResult where
  code : Int
  out : List Nat
  rem : List Nat
deriving DecidableEq, Repr

/-- Status line plus headers plus body as `dispatch_http` emits them:
`HTTP/1.1 <code> <reason-or-empty>\r\n`, a `Content-Length` header only
when the length is positive, the blank line, then the body. -/
def http_response (code : Nat) (reason : Option (List Nat)) (clen : Nat)
    (body : List Nat) : List Nat :=
  strB "HTTP/1.1 " ++ natBytes code ++ [32] ++ reason.getD [] ++ strB "\r\n" ++
    (if 0 < clen then strB "Content-Length: " ++ natBytes clen ++ strB "\r\n" else []) ++
    strB "\r\n" ++ body

/-- `dispatch_http` (http.c): optional 100-continue, then the method
switch.  POST/PUT read `Content-Length` bytes from the input only when the
parsed value is positive (EOF before that many bytes gives 400) and answer
201 with no reason phrase; GET rewrites `/`, resolves through the sandbox
and streams the file on success (404 otherwise); every other method gives
405 with no reason phrase. -/
def dispatch_http (fs : Fs) (root : List Nat) (headers : Hashtable)
    (method : Nat) (uri : List Nat) (input : List Nat) : DispatchResult :=
  let req_content_len : Int :=
    match ht_get headers (strB "content-length") with
    | none => 0
    | some v => atoi v
  let pre := expect_out headers
  if method = 3 ∨ method = 4 then
    -- POST/PUT
    if 0 < req_content_len then
      let n := req_content_len.toNat
      if n ≤ input.length then
        ⟨201, pre ++ http_response 201 none 0 [], input.drop n⟩
      else
        -- EOF while the body is short: everything available is consumed
        ⟨400, pre ++ http_response 400 none 0 [], []⟩
    else ⟨201, pre ++ http_response 201 none 0 [], input⟩
  else if method = 1 then
    -- GET
    let uri' := if uri = strB "/" then strB "/index.html" else uri
    match realpath_uri fs.rp root uri' with
    | none => ⟨404, pre ++ http_response 404 (some (strB "Not Found")) 0 [], input⟩
    | some p =>
        if fs.statOk p ∧ fs.isReg p ∧ fs.openOk p then
          ⟨200, pre ++ http_response 200 (some (strB "OK")) (fs.size p) (fs.content p),
            input⟩
        else ⟨404, pre ++ http_response 404 (some (strB "Not Found")) 0 [], input⟩
  else ⟨405, pre ++ http_response 405 none 0 [], input⟩

/-- Header-block reader of `parse_headers`: lines until the empty one
(`fuel` bounds the loop; every line consumes at least its CRLF, so
`stream length + 1` always suffices); `none` when a line read fails. -/
def read_header_lines : Nat → List Nat → Option (List (List Nat) × List Nat)
  | 0, _ => none
  | fuel + 1, s =>
      match io_read_line_crlf 8192 s with
      | none => none
      | some (line, rest) =>
          if line.isEmpty then some ([], rest)
          else
            match read_header_lines fuel rest with
            | none => none
            | some (ls, rest') => some (line :: ls, rest')

/-- `ws_is_upgradable` (ws.c): only the `upgrade: websocket` header is
checked. -/
def ws_is_upgradable (headers : Hashtable) : Bool :=
  match ht_get headers (strB "upgrade") with
  | none => false
  | some v => sz_equal_ignore_case v (strB "websocket")

/-- Echo loop of `dispatch_websocket` (http.c): wait for a message, echo
TEXT/BIN back, stop on CLOSE (code 0) or error (code -1).  `fuel` bounds
the iterations. -/
def ws_echo_loop (masked : Bool) : Nat → WsState → List Nat → Int × WsState × List Nat
  | 0, st, _ => (-1, st, [])
  | fuel + 1, st, s =>
      let r := ws_read_loop masked (s.length + 1) (-1) st s
      let code := ws_wait_code r.1
      if code = 1 then (0, r.2.1, r.2.2.2)
      else if code = 2 ∨ code = 3 then
        let echo := write_dataframe
          ⟨if code = 2 then 1 else 2, true, r.2.1.buff⟩ none
        let next := ws_echo_loop masked fuel r.2.1 r.2.2.1
        (next.1, next.2.1, r.2.2.2 ++ echo ++ next.2.2)
      else (-1, r.2.1, r.2.2.2)

/-- `_ws_send_close` (ws.c): unmasked CLOSE frame carrying the big-endian
status. -/
def ws_close_bytes (status : Nat) : List Nat :=
  write_dataframe ⟨8, true, [status / 256 % 256, status % 256]⟩ none

/-- `dispatch_websocket` (http.c): handshake (nothing written on failure,
return -1), the unsolicited empty PING from `_ws_create`, the echo loop,
then the GOING_AWAY close frame written by `ws_free`. -/
def dispatch_websocket (headers : Hashtable) (input : List Nat) : Int × List Nat :=
  match ws_handshake headers with
  | none => (-1, [])
  | some hs =>
      let ping := write_dataframe ⟨9, true, []⟩ none
      let r := ws_echo_loop true (input.length + 1) ws_init input
      (r.1, hs ++ ping ++ r.2.2 ++ ws_close_bytes 1001)

/-- `http_client_connect` (http.c): read the request line into an
8193-byte buffer, split it on spaces, check the version, map the method
(unknown gives a bare 405 return with nothing written), read the header
block (failure gives a bare 400 return), then dispatch to the WebSocket or
HTTP path.  Returns the handler's return code and every byte written to the
client. -/
def http_client_connect (fs : Fs) (root : List Nat) (s : List Nat) :
    Int × List Nat :=
  match io_read_line_crlf 8193 s with
  | none => (400, [])
  | some (req_line, rest) =>
      match space_tokens req_line with
      | m :: uri :: version :: _ =>
          if ¬scan_http_version version then (400, [])
          else
            let method := http_method m
            if method = 0 then (405, [])
            else
              match read_header_lines (rest.length + 1) rest with
              | none => (400, [])
              | some (lines, rest2) =>
                  let headers := parse_headers lines
                  if ws_is_upgradable headers then
                    dispatch_websocket headers rest2
                  else
                    let d := dispatch_http fs root headers method uri rest2
                    (d.code, d.out)
      | _ => (400, [])

/-! Helper lemmas shared between claims. -/

theorem xor_mask_length (k : MKey) (i : Nat) (l : List Nat) :
    (xor_mask k i l).length = l.length := by
  induction l generalizing i with
  | nil => rfl
  | cons b bs ih => simp [xor_mask, ih]

theorem xor_mask_involutive (k : MKey) (i : Nat) (l : List Nat) :
    xor_mask k i (xor_mask k i l) = l := by
  induction l generalizing i with
  | nil => rfl
  | cons b bs ih =>
      simp only [xor_mask, ih]
      rw [Nat.xor_assoc, Nat.xor_self, Nat.xor_zero]

theorem sz_starts_with_iff (sz pre : List Nat) :
    sz_starts_with sz pre = true ↔ pre <+: sz := by
  induction pre generalizing sz with
  | nil => simp [sz_starts_with, sz_starts_with_case]
  | cons b j ih =>
      cases sz with
      | nil =>
          simp [sz_starts_with, sz_starts_with_case]
      | cons a i =>
          simp only [sz_starts_with, sz_starts_with_case, List.cons_prefix_cons]
          by_cases hab : a = b
          · subst hab
            simpa [sz_starts_with] using ih i
          · simp [hab, Ne.symm hab]

/-- Header byte 0 with the reserved bits forced to zero (FIN bit and opcode
nibble kept). -/
def clear_rsv (b0 : Nat) : Nat := b0 / 128 % 2 * 128 + b0 % 16

/-- C3: the claim says a frame with any reserved bit set is rejected with
`ReservedBitsSet`.  The code never looks at the reserved bits: this frame
has rsv1 set (byte 0 = 0xC1 = FIN | RSV1 | TEXT) and is read successfully
as a TEXT frame. -/
theorem c3_rsv_counterexample :
    read_dataframe true [193, 128, 0, 0, 0, 0] =
      some (⟨1, true, []⟩, []) := by decide

/-- C3 (amended): `read_dataframe` ignores the reserved bits entirely —
its result on any stream equals its result with the reserved bits of the
first header byte cleared; no `ReservedBitsSet` failure exists. -/
theorem c3_rsv_ignored (rm : Bool) (b0 : Nat) (s : List Nat) :
    read_dataframe rm (b0 :: s) = read_dataframe rm (clear_rsv b0 :: s) := by
  have hfin : clear_rsv b0 / 128 % 2 = b0 / 128 % 2 := by
    unfold clear_rsv
    have h1 : b0 / 128 % 2 < 2 := Nat.mod_lt _ (by omega)
    have h2 : b0 % 16 < 16 := Nat.mod_lt _ (by omega)
    omega
  have hop : clear_rsv b0 % 16 = b0 % 16 := by
    unfold clear_rsv
    have h1 : b0 / 128 % 2 < 2 := Nat.mod_lt _ (by omega)
    have h2 : b0 % 16 < 16 := Nat.mod_lt _ (by omega)
    omega
  cases s with
  | nil => rfl
  | cons b1 rest =>
      simp only [read_dataframe, hfin, hop]

/-- C9: the claim says a CLOSE frame with a 1-byte payload is treated as a
protocol error.  On this stream — a masked CLOSE (fin=1) whose payload is
the single byte 0xE8 — the message loop instead returns WS_CLOSE (code 1,
not WS_ERROR = 0) with `status_code = 0`. -/
theorem c9_close1_counterexample :
    ws_wait true 8 ws_init [136, 129, 0, 0, 0, 0, 232] =
      (1, ⟨[], 0, 0, 0⟩, [], []) := by decide

/-- C9 (amended): a received CLOSE frame whose payload is shorter than two
bytes is handled as a normal close — the message loop returns WS_CLOSE with
`status_code = 0` (the payload byte is ignored), never an error. -/
theorem c9_close_short_is_normal_close (masked : Bool) (s rest : List Nat)
    (f : Frame) (fuel : Nat) (st : WsState)
    (hr : read_dataframe masked s = some (f, rest))
    (hop : f.opcode = 8) (hlen : f.payload.length < 2) :
    ws_wait masked (fuel + 1) st s =
      (1, { buff := [], ping_recv := st.ping_recv, pong_recv := st.pong_recv,
            status_code := 0 }, rest, []) := by
  unfold ws_wait ws_read_loop
  rw [hr]
  dsimp only
  rw [hop]
  norm_num
  exact ⟨by simp [ws_wait_code], fun h2 => absurd h2 (by omega)⟩

/-- Witness for `c9_close_short_is_normal_close` at the concrete 1-byte
CLOSE stream. -/
theorem c9_close_short_witness :
    read_dataframe true [136, 129, 0, 0, 0, 0, 232] =
      some (⟨8, true, [232]⟩, []) ∧
    (8 : Nat) = 8 ∧ ([232] : List Nat).length < 2 ∧
    ws_wait true 1 ws_init [136, 129, 0, 0, 0, 0, 232] =
      (1, ⟨[], 0, 0, 0⟩, [], []) :=
  ⟨by decide, rfl, by decide,
    c9_close_short_is_normal_close true [136, 129, 0, 0, 0, 0, 232] []
      ⟨8, true, [232]⟩ 0 ws_init (by decide) rfl (by decide)⟩

/-- Mask key used in the C2 failing input. -/
def c2key : MKey := ⟨1, 2, 3, 4⟩

/-- The C2 failing input: a fragmented TEXT message (fin=0, payload "A"),
then a PING control frame between the fragments, then the final CONT
fragment (fin=1, payload "B"), all masked. -/
def c2stream : List Nat :=
  write_dataframe ⟨1, false, [65]⟩ (some c2key) ++
  write_dataframe ⟨9, true, []⟩ (some c2key) ++
  write_dataframe ⟨0, true, [66]⟩ (some c2key)

/-- C2: the claim (and the spec, and RFC 6455) require the interleaved PING
to leave `prev_opcode` and the reassembly buffer untouched so the message
still reassembles to "AB" = [65, 66].  In the code the PING's non-CONT
opcode resets `buff_len` to 0 and, being final, sets `opcode_prev` back to
-1, so the following CONT hits the unexpected-opcode branch: the loop
reports WS_ERROR (0) after answering the PING with a PONG ([138, 0]), and
the buffer ends empty instead of holding [65, 66]. -/
theorem c2_interleaved_ping_breaks_reassembly :
    ws_wait true 20 ws_init c2stream =
      (0, ⟨[], 1, 0, 0⟩, [], [138, 0]) ∧
    (ws_wait true 20 ws_init c2stream).2.1.buff ≠ [65, 66] := by decide

/-- Trivial filesystem used to instantiate closed theorems about
`http_client_connect` (the request never reaches it). -/
def fs0 : Fs :=
  ⟨fun _ => none, fun _ => false, fun _ => false, fun _ => false,
   fun _ => 0, fun _ => []⟩

/-- C6: the claim says a request with an unknown method gets the bytes
`HTTP/1.1 405 Method Not Allowed\r\n\r\n` written to the client.  On
`BOGUS / HTTP/1.1\r\n\r\n` the handler returns code 405 but writes nothing:
the output is empty and in particular does not start with that status
line. -/
theorem c6_bogus_counterexample :
    http_client_connect fs0 [] (strB "BOGUS / HTTP/1.1\r\n\r\n") = (405, []) ∧
    ¬ (strB "HTTP/1.1 405 Method Not Allowed\r\n\r\n" <+:
        (http_client_connect fs0 [] (strB "BOGUS / HTTP/1.1\r\n\r\n")).2) := by
  have h0 : http_client_connect fs0 [] (strB "BOGUS / HTTP/1.1\r\n\r\n") =
      (405, []) := by decide
  refine ⟨h0, ?_⟩
  rw [h0]
  decide

/-- C6 (amended): for every request whose request line parses (three
space-separated tokens, valid `HTTP/<d>.<d>` version) but whose method is
outside {GET, POST, PUT, DELETE}, `http_client_connect` returns code 405
having written no bytes at all to the client (the 405 exists only as the
function's return value). -/
theorem c6_unknown_method_writes_nothing (fs : Fs)
    (root s req_line rest m uri version : List Nat) (ts : List (List Nat))
    (hline : io_read_line_crlf 8193 s = some (req_line, rest))
    (htok : space_tokens req_line = m :: uri :: version :: ts)
    (hver : scan_http_version version = true)
    (hm : http_method m = 0) :
    http_client_connect fs root s = (405, []) := by
  unfold http_client_connect
  rw [hline]
  dsimp only
  rw [htok]
  dsimp only
  rw [hver, hm]
  simp

/-- Witness for `c6_unknown_method_writes_nothing` on the BOGUS request. -/
theorem c6_unknown_method_witness :
    io_read_line_crlf 8193 (strB "BOGUS / HTTP/1.1\r\n\r\n") =
      some (strB "BOGUS / HTTP/1.1", strB "\r\n") ∧
    space_tokens (strB "BOGUS / HTTP/1.1") =
      [strB "BOGUS", strB "/", strB "HTTP/1.1"] ∧
    scan_http_version (strB "HTTP/1.1") = true ∧
    http_method (strB "BOGUS") = 0 ∧
    http_client_connect fs0 [] (strB "BOGUS / HTTP/1.1\r\n\r\n") = (405, []) :=
  ⟨by decide, by decide, by decide, by decide,
    c6_unknown_method_writes_nothing fs0 [] (strB "BOGUS / HTTP/1.1\r\n\r\n")
      (strB "BOGUS / HTTP/1.1") (strB "\r\n") (strB "BOGUS") (strB "/")
      (strB "HTTP/1.1") [] (by decide) (by decide) (by decide) (by decide)⟩

/-! Frame-codec stage lemmas for the round-trip and length-encoding
claims. -/

theorem parse_len_small (len : Nat) (h : len ≤ 125) (s : List Nat) :
    parse_len len s = some (len, s) := by
  unfold parse_len
  rw [if_neg (by omega), if_neg (by omega)]

theorem parse_len_16 (len : Nat) (h1 : 126 ≤ len) (h2 : len ≤ 65535) (s : List Nat) :
    parse_len 126 (len / 256 % 256 :: len % 256 :: s) = some (len, s) := by
  unfold parse_len
  norm_num
  omega

theorem parse_len_64 (len : Nat) (h : len < 2 ^ 63) (s : List Nat) :
    parse_len 127 (be64bytes len ++ s) = some (len, s) := by
  unfold parse_len be64bytes
  norm_num
  constructor
  · omega
  · omega

theorem parse_payload_mask (k : MKey) (p extra : List Nat) :
    parse_payload true p.length k (xor_mask k 0 p ++ extra) = some (p, extra) := by
  unfold parse_payload
  cases p with
  | nil => simp [xor_mask]
  | cons a as =>
      have hxl : (xor_mask k 0 (a :: as)).length = as.length + 1 := by
        simpa using xor_mask_length k 0 (a :: as)
      rw [if_neg (by simp), if_neg (by simp [hxl])]
      simp [List.take_left' hxl, List.drop_left' hxl, xor_mask_involutive]

/-- C4: reading back the bytes written for any frame with a mask key, with
masking required, returns a frame with the same opcode, FIN bit and
payload (and consumes exactly the written bytes, leaving any following
stream bytes untouched).  The opcode bound reflects the 4-bit header field
of the C struct; the length bound is the claim's `2^63 - 1` limit, enforced
by the reader's high-bit check. -/
theorem c4_frame_roundtrip (df : Frame) (k : MKey) (extra : List Nat)
    (hop : df.opcode < 16) (hlen : df.payload.length < 2 ^ 63) :
    read_dataframe true (write_dataframe df (some k) ++ extra) =
      some (df, extra) := by
  obtain ⟨op, fin, p⟩ := df
  have hop' : op < 16 := hop
  have hlen' : p.length < 2 ^ 63 := hlen
  simp only [write_dataframe, MKey.bytes, Option.isSome]
  rw [Nat.mod_eq_of_lt hop']
  by_cases h1 : p.length ≤ 125
  · rw [if_pos h1]
    simp only [if_true, List.cons_append, List.append_assoc, List.nil_append]
    simp only [read_dataframe, parse_key]
    have hb1 : (128 + p.length) / 128 % 2 = 1 := by omega
    have hb1' : (128 + p.length) % 128 = p.length := by omega
    rw [hb1, hb1']
    rw [parse_len_small _ h1]
    cases fin with
    | true =>
        have hb0 : (128 + op) / 128 % 2 = 1 := by omega
        have hb0' : (128 + op) % 16 = op := by omega
        simp only [if_true, hb0, hb0']
        simp [parse_payload_mask]
    | false =>
        simp [parse_payload_mask]
        omega
  · rw [if_neg h1]
    by_cases h2 : p.length ≤ 65535
    · rw [if_pos h2]
      simp only [if_true, List.cons_append, List.append_assoc, List.nil_append]
      simp only [read_dataframe, parse_key]
      norm_num
      rw [parse_len_16 _ (by omega) h2]
      cases fin with
      | true =>
          have hb0 : (128 + op) / 128 % 2 = 1 := by omega
          have hb0' : (128 + op) % 16 = op := by omega
          simp only [if_true, hb0, hb0']
          simp [parse_payload_mask]
      | false =>
          simp [parse_payload_mask]
          omega
    · rw [if_neg h2]
      simp only [if_true, List.cons_append, List.append_assoc, List.nil_append]
      simp only [read_dataframe, parse_key]
      norm_num
      rw [parse_len_64 _ hlen']
      cases fin with
      | true =>
          have hb0 : (128 + op) / 128 % 2 = 1 := by omega
          have hb0' : (128 + op) % 16 = op := by omega
          simp only [if_true, hb0, hb0']
          simp [parse_payload_mask]
      | false =>
          simp [parse_payload_mask]
          omega

/-- Witness for `c4_frame_roundtrip` on a concrete TEXT frame "Hi" with
mask key (1,2,3,4). -/
theorem c4_frame_roundtrip_witness :
    (1 : Nat) < 16 ∧ ([72, 105] : List Nat).length < 2 ^ 63 ∧
    read_dataframe true
        (write_dataframe ⟨1, true, [72, 105]⟩ (some ⟨1, 2, 3, 4⟩) ++ []) =
      some (⟨1, true, [72, 105]⟩, []) :=
  ⟨by decide, by decide,
    c4_frame_roundtrip ⟨1, true, [72, 105]⟩ ⟨1, 2, 3, 4⟩ [] (by decide) (by decide)⟩

/-- Header-prefix size (bytes before the optional mask key) chosen by
`write_dataframe` for a payload length: the spec's 2-, 4- and 10-byte
forms. -/
def header_len (len : Nat) : Nat :=
  if len ≤ 125 then 2 else if len ≤ 65535 then 4 else 10

/-- C8: the frame writer always picks the shortest length form.  The
output's total length is prefix + (4 key bytes exactly when masked) +
payload; a payload of ≤ 125 bytes puts the length inline in the low 7 bits
of byte 1; 126..65535 uses marker 126 with a big-endian u16 that decodes
back to the length; longer payloads use marker 127 with a big-endian u64;
and the bytes after the prefix are precisely the 4-byte key followed by the
masked payload when a key is supplied, else the raw payload. -/
theorem c8_shortest_length_encoding (df : Frame) (mk : Option MKey) :
    (write_dataframe df mk).length =
        header_len df.payload.length + (if mk.isSome then 4 else 0) +
          df.payload.length ∧
    (df.payload.length ≤ 125 →
        (write_dataframe df mk).getD 1 0 % 128 = df.payload.length) ∧
    (126 ≤ df.payload.length → df.payload.length ≤ 65535 →
        (write_dataframe df mk).getD 1 0 % 128 = 126 ∧
        (write_dataframe df mk).getD 2 0 * 256 +
          (write_dataframe df mk).getD 3 0 = df.payload.length) ∧
    (65536 ≤ df.payload.length → df.payload.length < 2 ^ 64 →
        (write_dataframe df mk).getD 1 0 % 128 = 127 ∧
        (((((((write_dataframe df mk).getD 2 0 * 256 +
          (write_dataframe df mk).getD 3 0) * 256 +
          (write_dataframe df mk).getD 4 0) * 256 +
          (write_dataframe df mk).getD 5 0) * 256 +
          (write_dataframe df mk).getD 6 0) * 256 +
          (write_dataframe df mk).getD 7 0) * 256 +
          (write_dataframe df mk).getD 8 0) * 256 +
          (write_dataframe df mk).getD 9 0 = df.payload.length) ∧
    (∀ k, mk = some k →
        (write_dataframe df mk).drop (header_len df.payload.length) =
          k.bytes ++ xor_mask k 0 df.payload) ∧
    (mk = none →
        (write_dataframe df mk).drop (header_len df.payload.length) =
          df.payload) := by
  obtain ⟨op, fin, p⟩ := df
  by_cases h1 : p.length ≤ 125
  · cases mk with
    | none =>
        simp [write_dataframe, header_len, h1, be64bytes]
        omega
    | some k =>
        simp [write_dataframe, header_len, h1, be64bytes, MKey.bytes,
          xor_mask_length]
        omega
  · by_cases h2 : p.length ≤ 65535
    · cases mk with
      | none =>
          simp [write_dataframe, header_len, h1, h2, be64bytes]
          omega
      | some k =>
          simp [write_dataframe, header_len, h1, h2, be64bytes, MKey.bytes,
            xor_mask_length]
          omega
    · cases mk with
      | none =>
          simp [write_dataframe, header_len, h1, h2, be64bytes]
          omega
      | some k =>
          simp [write_dataframe, header_len, h1, h2, be64bytes, MKey.bytes,
            xor_mask_length]
          omega

/-- Witness for `c8_shortest_length_encoding` in all three length regimes
(payloads of 1, 300 and 70000 bytes). -/
theorem c8_shortest_length_encoding_witness :
    (write_dataframe ⟨1, true, [7]⟩ (some ⟨1, 2, 3, 4⟩)).getD 1 0 % 128 =
      ([7] : List Nat).length ∧
    (126 : Nat) ≤ (List.replicate 300 (5 : Nat)).length ∧
    (write_dataframe ⟨2, false, List.replicate 300 5⟩ none).getD 1 0 % 128 = 126 ∧
    (65536 : Nat) ≤ (List.replicate 70000 (0 : Nat)).length ∧
    (write_dataframe ⟨2, true, List.replicate 70000 0⟩ none).getD 1 0 % 128 = 127 :=
  ⟨(c8_shortest_length_encoding ⟨1, true, [7]⟩ (some ⟨1, 2, 3, 4⟩)).2.1 (by norm_num),
   by norm_num,
   ((c8_shortest_length_encoding ⟨2, false, List.replicate 300 5⟩ none).2.2.1
     (by norm_num) (by norm_num)).1,
   by norm_num,
   ((c8_shortest_length_encoding ⟨2, true, List.replicate 70000 0⟩ none).2.2.2.1
     (by norm_num) (by norm_num)).1⟩

/-- C1: whenever `realpath_uri` returns a path, the canonical root is a
byte-prefix of it (the `sz_starts_with` containment check), and the path
names an existing filesystem object — the latter because the underlying
`realpath` primitive (`rp`, abstracted with its guarantee `hrp`) only
returns paths of existing objects. -/
theorem c1_resolve_sandboxed (rp : List Nat → Option (List Nat))
    (fsE : List Nat → Bool)
    (hrp : ∀ s p, rp s = some p → fsE p = true)
    (root uri p : List Nat)
    (h : realpath_uri rp root uri = some p) :
    root <+: p ∧ fsE p = true := by
  unfold realpath_uri at h
  by_cases hl : root.length + uri.length ≥ PATH_MAX
  · rw [if_pos hl] at h
    exact absurd h (by simp)
  · rw [if_neg hl] at h
    cases hc : rp (root ++ uri) with
    | none => rw [hc] at h; exact absurd h (by simp)
    | some q =>
        rw [hc] at h
        dsimp only at h
        by_cases hs : sz_starts_with q root = true
        · rw [if_pos hs] at h
          injection h with h'
          subst h'
          exact ⟨(sz_starts_with_iff _ _).1 hs, hrp _ _ hc⟩
        · rw [if_neg hs] at h
          exact absurd h (by simp)

/-- Concrete `realpath` primitive for the C1 witness: one existing object. -/
def c1rp : List Nat → Option (List Nat) := fun s =>
  if s = strB "/srv/www/a" then some (strB "/srv/www/a") else none

/-- Concrete existence predicate for the C1 witness. -/
def c1fsE : List Nat → Bool := fun p => p = strB "/srv/www/a"

/-- Witness for `c1_resolve_sandboxed` with root `/srv/www` and URI `/a`. -/
theorem c1_resolve_sandboxed_witness :
    (∀ s p, c1rp s = some p → c1fsE p = true) ∧
    realpath_uri c1rp (strB "/srv/www") (strB "/a") = some (strB "/srv/www/a") ∧
    (strB "/srv/www" <+: strB "/srv/www/a" ∧ c1fsE (strB "/srv/www/a") = true) := by
  have hrp : ∀ s p, c1rp s = some p → c1fsE p = true := by
    intro s p h
    unfold c1rp at h
    split at h
    · injection h with h'
      subst h'
      decide
    · exact absurd h (by simp)
  exact ⟨hrp, by decide,
    c1_resolve_sandboxed c1rp c1fsE hrp (strB "/srv/www") (strB "/a")
      (strB "/srv/www/a") (by decide)⟩

/-- C10: for a POST or PUT request whose `Content-Length` header is absent
or parses (via `atoi`) to a non-positive value, the handler consumes no
input bytes and responds with status 201 — the body-reading loop and its
400 paths are guarded by `req_content_len > 0`.  (The emitted status line
is `HTTP/1.1 201 \r\n`: the code never sets a reason phrase on this
path.) -/
theorem c10_postput_no_body_read (fs : Fs) (root : List Nat)
    (headers : Hashtable) (method : Nat) (uri input : List Nat)
    (hm : method = 3 ∨ method = 4)
    (hcl : ∀ v, ht_get headers (strB "content-length") = some v → atoi v ≤ 0) :
    dispatch_http fs root headers method uri input =
      ⟨201, expect_out headers ++ http_response 201 none 0 [], input⟩ := by
  unfold dispatch_http
  rw [if_pos hm]
  cases hc : ht_get headers (strB "content-length") with
  | none => simp
  | some v =>
      have hv := hcl v hc
      dsimp only
      rw [if_neg (by omega)]

/-- Witness for `c10_postput_no_body_read`: a POST whose only header is
`expect: 100-continue` (no `Content-Length`), with pending input bytes that
must remain unread. -/
theorem c10_postput_no_body_read_witness :
    ((3 : Nat) = 3 ∨ (3 : Nat) = 4) ∧
    (∀ v, ht_get (parse_headers [strB "Expect: 100-continue"])
        (strB "content-length") = some v → atoi v ≤ 0) ∧
    dispatch_http fs0 [] (parse_headers [strB "Expect: 100-continue"]) 3
        (strB "/x") [104, 105] =
      ⟨201, expect_out (parse_headers [strB "Expect: 100-continue"]) ++
        http_response 201 none 0 [], [104, 105]⟩ := by
  have hcl : ∀ v, ht_get (parse_headers [strB "Expect: 100-continue"])
      (strB "content-length") = some v → atoi v ≤ 0 := by
    intro v h
    rw [show ht_get (parse_headers [strB "Expect: 100-continue"])
        (strB "content-length") = none from by decide] at h
    exact absurd h (by simp)
  exact ⟨Or.inl rfl, hcl,
    c10_postput_no_body_read fs0 [] (parse_headers [strB "Expect: 100-continue"])
      3 (strB "/x") [104, 105] (Or.inl rfl) hcl⟩

/-- C7: whenever the handshake succeeds for a request whose
`sec-websocket-key` header is `key`, the response carries a
`sec-websocket-accept` header whose value is the unwrapped base64 of the
SHA-1 of the raw key bytes followed by the fixed GUID; and on the RFC 6455
sample key the accept value is the expected constant. -/
theorem c7_handshake_accept :
    (∀ headers key out,
        ht_get headers (strB "sec-websocket-key") = some key →
        ws_handshake headers = some out →
        ∃ pre, out = pre ++ strB "sec-websocket-accept: " ++
          b64encode (sha1 (key ++ wsMagic)) ++ strB "\r\n\r\n") ∧
    b64encode (sha1 (strB "dGhlIHNhbXBsZSBub25jZQ==" ++ wsMagic)) =
      strB "s3pPLMBiTxaQ9kYGzzhZRbK+xOo=" := by
  constructor
  · intro headers key out hkey hout
    unfold ws_handshake at hout
    split at hout
    · exact absurd hout (by simp)
    · rw [hkey] at hout
      dsimp only at hout
      split at hout
      · exact absurd hout (by simp)
      · injection hout with h
        subst h
        refine ⟨strB "HTTP/1.1 101 Switching Protocols\r\n" ++
          strB "connection: upgrade\r\n" ++ strB "upgrade: websocket\r\n", ?_⟩
        simp [List.append_assoc]
  · decide

/-- Header table of the C7 witness: an upgrade request carrying the RFC
sample key. -/
def c7headers : Hashtable :=
  ht_put (ht_put ht_create (strB "upgrade") (strB "websocket"))
    (strB "sec-websocket-key") (strB "dGhlIHNhbXBsZSBub25jZQ==")

/-- The full handshake response for the C7 witness. -/
def c7out : List Nat :=
  strB "HTTP/1.1 101 Switching Protocols\r\nconnection: upgrade\r\nupgrade: websocket\r\nsec-websocket-accept: s3pPLMBiTxaQ9kYGzzhZRbK+xOo=\r\n\r\n"

/-- Witness for `c7_handshake_accept` on the sample-key upgrade request. -/
theorem c7_handshake_accept_witness :
    ht_get c7headers (strB "sec-websocket-key") =
      some (strB "dGhlIHNhbXBsZSBub25jZQ==") ∧
    ws_handshake c7headers = some c7out ∧
    (∃ pre, c7out = pre ++ strB "sec-websocket-accept: " ++
      b64encode (sha1 (strB "dGhlIHNhbXBsZSBub25jZQ==" ++ wsMagic)) ++
      strB "\r\n\r\n") :=
  ⟨by decide, by decide,
    c7_handshake_accept.1 c7headers (strB "dGhlIHNhbXBsZSBub25jZQ==") c7out
      (by decide) (by decide)⟩

/-- A byte string without ASCII upper-case letters — the shape of every key
the header parser stores. -/
def noUpper (k : List Nat) : Prop := ∀ c ∈ k, ¬(65 ≤ c ∧ c ≤ 90)

theorem noUpper_sz_to_lower (n : List Nat) : noUpper (sz_to_lower n) := by
  intro c hc
  simp only [sz_to_lower, List.mem_map] at hc
  obtain ⟨a, _, rfl⟩ := hc
  unfold ctolower
  split <;> omega

theorem sz_to_lower_fixed (k : List Nat) : noUpper k → sz_to_lower k = k := by
  induction k with
  | nil => intro; rfl
  | cons c cs ih =>
      intro h
      have h1 := h c (List.mem_cons_self c cs)
      have h2 : noUpper cs := fun d hd => h d (List.mem_cons_of_mem _ hd)
      simp only [sz_to_lower, List.map_cons]
      rw [show ctolower c = c from by unfold ctolower; rw [if_neg h1]]
      rw [show List.map ctolower cs = cs from ih h2]

/-- Every key stored in any chain of the table has no upper-case letter. -/
def KeysLower (t : Hashtable) : Prop := ∀ i p, p ∈ t.chains i → noUpper p.1

theorem keysLower_put (t : Hashtable) (k v : List Nat) (ht : KeysLower t)
    (hk : noUpper k) : KeysLower (ht_put t k v) := by
  intro i p hp
  unfold ht_put at hp
  dsimp only at hp
  by_cases hi : i = ht_hash_sz k % t.nhash
  · rw [if_pos hi] at hp
    unfold chain_put at hp
    split at hp
    · obtain ⟨q, hq, hpq⟩ := List.mem_map.1 hp
      have hpq1 : p.1 = q.1 := by
        by_cases hqk : (q.1 == k) = true
        · rw [if_pos hqk] at hpq
          rw [← hpq]
        · rw [if_neg hqk] at hpq
          rw [← hpq]
      rw [hpq1]
      exact ht _ _ hq
    · rcases List.mem_cons.1 hp with rfl | hp'
      · exact hk
      · exact ht _ _ hp'
  · rw [if_neg hi] at hp
    exact ht _ _ hp

theorem keysLower_parse (lines : List (List Nat)) :
    KeysLower (parse_headers lines) := by
  unfold parse_headers
  have main : ∀ (ls : List (List Nat)) (t : Hashtable), KeysLower t →
      KeysLower (ls.foldl
        (fun ht line =>
          match split_header line with
          | none => ht
          | some (n, v) => ht_put ht (sz_to_lower n) (sz_trim v)) t) := by
    intro ls
    induction ls with
    | nil => intro t h; exact h
    | cons l ls ih =>
        intro t h
        simp only [List.foldl_cons]
        apply ih
        cases hs : split_header l with
        | none => simpa [hs] using h
        | some nv =>
            obtain ⟨n, v⟩ := nv
            simp only [hs]
            exact keysLower_put _ _ _ h (noUpper_sz_to_lower _)
  exact main lines ht_create (by intro i p hp; simp [ht_create] at hp)

theorem chain_get_mem (k : List Nat) (c : List (List Nat × List Nat))
    (v : List Nat) (h : chain_get k c = some v) : ∃ p ∈ c, p.1 = k := by
  induction c with
  | nil => simp [chain_get] at h
  | cons q rest ih =>
      unfold chain_get at h
      by_cases hq : (q.1 == k) = true
      · exact ⟨q, by simp, by simpa using hq⟩
      · rw [if_neg hq] at h
        obtain ⟨p, hp, hpk⟩ := ih h
        exact ⟨p, by simp [hp], hpk⟩

theorem chain_get_none (k : List Nat) (c : List (List Nat × List Nat))
    (h : ∀ p ∈ c, p.1 ≠ k) : chain_get k c = none := by
  induction c with
  | nil => rfl
  | cons q rest ih =>
      unfold chain_get
      rw [if_neg (by simpa using h q (by simp))]
      exact ih (fun p hp => h p (by simp [hp]))

/-- Header lines of the C5 counterexample. -/
def c5lines : List (List Nat) := [strB "Content-Length: 2112"]

/-- C5: the claim says looking up a stored header name is case-insensitive.
The table stores the name lower-cased and `ht_get` compares byte-for-byte:
for the stored name `content-length` (value "2112"), the all-upper-case
lookup finds nothing. -/
theorem c5_uppercase_lookup_counterexample :
    ht_get (parse_headers c5lines) (strB "content-length") =
      some (strB "2112") ∧
    ht_get (parse_headers c5lines) (sz_to_upper (strB "content-length")) =
      none := by decide

/-- C5 (amended): header names are normalized to lower case when parsed and
looked up by exact byte equality.  For every name `H` present in a parsed
mapping, `H` is already lower-case, so looking up `lowercase(H)` returns
the same value as looking up `H`; but whenever `H` contains a letter, the
`uppercase(H)` lookup returns nothing. -/
theorem c5_header_lookup_case (lines : List (List Nat)) (H v : List Nat)
    (hfound : ht_get (parse_headers lines) H = some v) :
    ht_get (parse_headers lines) (sz_to_lower H) = some v ∧
    ((∃ c ∈ H, 97 ≤ c ∧ c ≤ 122) →
      ht_get (parse_headers lines) (sz_to_upper H) = none) := by
  have hinv := keysLower_parse lines
  obtain ⟨p, hp, hpk⟩ := chain_get_mem _ _ _ hfound
  have hH : noUpper H := hpk ▸ hinv _ p hp
  constructor
  · rw [sz_to_lower_fixed H hH]
    exact hfound
  · rintro ⟨c, hc, hc1, hc2⟩
    unfold ht_get
    apply chain_get_none
    intro q hq heq
    have hqU : noUpper q.1 := hinv _ q hq
    rw [heq] at hqU
    have hmem : ctoupper c ∈ sz_to_upper H := List.mem_map_of_mem _ hc
    have hcontra := hqU _ hmem
    unfold ctoupper at hcontra
    rw [if_pos ⟨hc1, hc2⟩] at hcontra
    omega

/-- Witness for `c5_header_lookup_case` on the parsed `Content-Length`
header. -/
theorem c5_header_lookup_case_witness :
    ht_get (parse_headers c5lines) (strB "content-length") =
      some (strB "2112") ∧
    (∃ c ∈ strB "content-length", 97 ≤ c ∧ c ≤ 122) ∧
    (ht_get (parse_headers c5lines) (sz_to_lower (strB "content-length")) =
        some (strB "2112") ∧
      ht_get (parse_headers c5lines) (sz_to_upper (strB "content-length")) =
        none) :=
  ⟨by decide, by decide,
    (c5_header_lookup_case c5lines (strB "content-length") (strB "2112")
        (by decide)).1,
    (c5_header_lookup_case c5lines (strB "content-length") (strB "2112")
        (by decide)).2 (by decide)⟩
